/-
Verification of the entitlement and quota engine of the Kind Friend web
application (`src/app.py`) against its natural-language specification.

The Python source is shallowly embedded:

* Unix timestamps handled by `trial_info` are modelled as integers
  (`ℤ`, seconds); the token-bucket state, which the source stores as SQL
  `REAL` columns and refills fractionally, is modelled over `ℚ`.
* The SQL `users` table becomes a `List User`; only the columns the
  entitlement engine reads (`id`, `created_at`, `stripe_customer_id`,
  `subscription_status`) are carried, the cosmetic columns play no role
  in any claim.  `NULL`-able text columns become `Option String`.
* The SQL `rate_limit` table (`key TEXT PRIMARY KEY, tokens REAL,
  updated REAL`) becomes an association list `List (String × ℚ × ℚ)`;
  `SELECT ... WHERE key = ?` is `rlGet`, `UPDATE ... WHERE key = ?` is
  `rlSet`, and `INSERT` appends a row.
* The Stripe webhook handler is modelled after signature verification and
  JSON parsing: its inputs are the event type and the `customer` /
  `status` fields of the event's data object (absent fields are `none`).
-/
import Mathlib

set_option maxHeartbeats 1000000

namespace KindFriend

/-- A row of the `users` table, restricted to the columns the entitlement
engine reads.  `created_at` is a unix timestamp in seconds. -/
structure User where
  id : String
  created_at : ℤ
  stripe_customer_id : Option String
  subscription_status : Option String
  deriving DecidableEq, Repr

/-- `user["created_at"] + TRIAL_DAYS*86400` — the end of the trial window
(`app.py` line 485). -/
def trialEnd (TRIAL_DAYS : ℤ) (user : User) : ℤ :=
  user.created_at + TRIAL_DAYS * 86400

/-- `trial_info` (`app.py` lines 483-490).  Returns `(allowed, days_left)`:
`(true, none)` when the stored subscription status is `"active"` (Python
returns `True, None`), `(true, some d)` while the trial window is open, and
`(false, some 0)` after it has closed. -/
def trial_info (TRIAL_DAYS : ℤ) (user : User) (now : ℤ) : Bool × Option ℤ :=
  if user.subscription_status = some "active" then (true, none)
  else if now < trialEnd TRIAL_DAYS user then
    (true, some (max 1 ((trialEnd TRIAL_DAYS user - now + 86399) / 86400)))
  else (false, some 0)

/-- The status the webhook handler derives from the event type
(`app.py` lines 1653-1656): `checkout.session.completed ↦ active`,
`customer.subscription.updated ↦ data.status`,
`customer.subscription.deleted ↦ canceled`, anything else `↦ none`. -/
def webhook_status (t : String) (data_status : Option String) : Option String :=
  if t = "checkout.session.completed" then some "active"
  else if t = "customer.subscription.updated" then data_status
  else if t = "customer.subscription.deleted" then some "canceled"
  else none

/-- `UPDATE users SET subscription_status=? WHERE stripe_customer_id=?`
(`app.py` line 1659): every user whose stored customer id equals the
event's customer id gets the new status; everyone else is untouched. -/
def apply_status_update (customer_id : String) (status : String)
    (users : List User) : List User :=
  users.map fun u =>
    if u.stripe_customer_id = some customer_id then
      { u with subscription_status := some status }
    else u

/-- The reconciliation step of `stripe_webhook` (`app.py` lines 1651-1660),
after signature verification and JSON parsing.  Python guards the update
with `if customer_id and status:`, so a missing or empty customer id or
status skips the write; every path answers HTTP 200 `"ok"`. -/
def stripe_webhook (t : String) (data_customer : Option String)
    (data_status : Option String) (users : List User) : ℕ × List User :=
  match data_customer, webhook_status t data_status with
  | some cid, some s =>
    if cid = "" ∨ s = "" then (200, users)
    else (200, apply_status_update cid s users)
  | some _, none => (200, users)
  | none, _ => (200, users)

/-! ## Rate-limit token bucket (`app.py` lines 280-301) -/

/-- The `rate_limit` table: rows `(key, tokens, updated)`. -/
abbrev RLStore := List (String × ℚ × ℚ)

/-- `SELECT tokens, updated FROM rate_limit WHERE key = ?`: the first row
whose key matches (the key is the table's primary key). -/
def rlGet : RLStore → String → Option (ℚ × ℚ)
  | [], _ => none
  | (k, tu) :: rest, key => if k = key then some tu else rlGet rest key

/-- `UPDATE rate_limit SET tokens=?, updated=? WHERE key=?`: rewrites every
row whose key matches, leaving the others untouched. -/
def rlSet : RLStore → String → ℚ → ℚ → RLStore
  | [], _, _, _ => []
  | (k, tu) :: rest, key, t, u =>
    if k = key then (k, t, u) :: rlSet rest key t u
    else (k, tu) :: rlSet rest key t u

/-- `key = f"user:{user_id}" if user_id else f"ip:{ip}"`
(`app.py` line 285). -/
def rlKey (user_id : Option String) (ip : String) : String :=
  match user_id with
  | some uid => "user:" ++ uid
  | none => "ip:" ++ ip

/-- `check_rate_limit` (`app.py` lines 282-301) acting on the `rate_limit`
table.  `RATE_LIMIT_RPM ≤ 0` disables the limiter; a missing row is
initialised with `capacity - 1` tokens and the call allowed; otherwise the
bucket refills by `elapsed * capacity/60` (with `elapsed = max 0 (now -
updated)`), capped at `capacity`, and one token is consumed when at least
one is available. -/
def check_rate_limit (RATE_LIMIT_RPM : ℤ) (user_id : Option String)
    (ip : String) (store : RLStore) (now : ℚ) : Bool × RLStore :=
  if RATE_LIMIT_RPM ≤ 0 then (true, store)
  else
    match rlGet store (rlKey user_id ip) with
    | none => (true, store ++ [(rlKey user_id ip, (RATE_LIMIT_RPM : ℚ) - 1, now)])
    | some (tokens, updated) =>
      let tokens' := min (RATE_LIMIT_RPM : ℚ)
        (tokens + max 0 (now - updated) * ((RATE_LIMIT_RPM : ℚ) / 60))
      if tokens' < 1 then (false, rlSet store (rlKey user_id ip) tokens' now)
      else (true, rlSet store (rlKey user_id ip) (tokens' - 1) now)

/-- A sequence of `check_rate_limit` calls at the given instants, threading
the `rate_limit` table through; returns the calls' verdicts and the final
table. -/
def rl_calls (RATE_LIMIT_RPM : ℤ) (user_id : Option String) (ip : String) :
    List ℚ → RLStore → List Bool × RLStore
  | [], store => ([], store)
  | t :: ts, store =>
    let r := check_rate_limit RATE_LIMIT_RPM user_id ip store t
    let rest := rl_calls RATE_LIMIT_RPM user_id ip ts r.2
    (r.1 :: rest.1, rest.2)

/-- The claim's (spec §4.4) single-bucket step exactly as C3 states it:
`elapsed = now - lastUpdated` with NO clamping of a negative elapsed time,
then refill capped at capacity and consume one token if available.
Defined for comparison with `check_rate_limit`. -/
def allowCall_claim (capacity : ℤ) (bucket : ℚ × ℚ) (now : ℚ) : Bool × (ℚ × ℚ) :=
  let tokens := min (capacity : ℚ)
    (bucket.1 + (now - bucket.2) * ((capacity : ℚ) / 60))
  if tokens < 1 then (false, (tokens, now)) else (true, (tokens - 1, now))

/-- The single-bucket step the code actually performs (the amended C3):
identical to `allowCall_claim` except `elapsed = max 0 (now - lastUpdated)`. -/
def allowCall (capacity : ℤ) (bucket : ℚ × ℚ) (now : ℚ) : Bool × (ℚ × ℚ) :=
  let tokens := min (capacity : ℚ)
    (bucket.1 + max 0 (now - bucket.2) * ((capacity : ℚ) / 60))
  if tokens < 1 then (false, (tokens, now)) else (true, (tokens - 1, now))

/-! ## Daily quota check (spec §4.2)

`src/app.py` gates chat only by `trial_info` and `check_rate_limit`
(lines 1444-1451): the repository's `checkAndConsume` daily-quota engine
described in spec §4.2 is not part of this file, so it is modelled from
the spec below. -/

/-- Modelled from the spec: a row of the append-only Usage Ledger (§3
UsageEvent) — "this user performed this countable action at this instant". -/
structure UsageEvent where
  userId : String
  kind : String
  ts : ℤ
  deriving DecidableEq, Repr

/-- Modelled from the spec: the Usage Ledger read contract (§6)
`countEvents(userId, kind, sinceInclusive, untilExclusive)` — the count of
events of the kind by the user with timestamp in the half-open window. -/
def countEvents (ledger : List UsageEvent) (userId kind : String)
    (sinceInclusive untilExclusive : ℤ) : ℕ :=
  (ledger.filter fun e =>
    e.userId == userId && e.kind == kind &&
    decide (sinceInclusive ≤ e.ts) && decide (e.ts < untilExclusive)).length

/-- Modelled from the spec: the result record of §4.2 `checkAndConsume`. -/
structure QuotaResult where
  allowed : Bool
  used : ℕ
  remaining : ℤ
  deriving DecidableEq, Repr

/-- Modelled from the spec: §4.2 `checkAndConsume` for a daily-reset action
kind, with the counting window `[dayStart, dayEnd)` supplied by the clock
collaborator.  Steps 3-5: `used` is the ledger count in the window,
`allowed = used < allowance`, `remaining = max(allowance - used, 0)`.
The engine does not write the ledger itself (step 4). -/
def checkAndConsume (ledger : List UsageEvent) (userId actionKind : String)
    (allowance : ℕ) (dayStart dayEnd : ℤ) : QuotaResult :=
  let used := countEvents ledger userId actionKind dayStart dayEnd
  { allowed := decide (used < allowance)
    used := used
    remaining := max ((allowance : ℤ) - (used : ℤ)) 0 }

/-! ## Helper lemmas -/

/-- For an integer number of remaining seconds, the code's
`(r + 86399) // 86400` is exactly the ceiling of `r / 86400`. -/
lemma ceil_days (r : ℤ) : ⌈(r : ℚ) / 86400⌉ = (r + 86399) / 86400 := by
  have h1 : r ≤ 86400 * ((r + 86399) / 86400) := by omega
  have h2 : 86400 * ((r + 86399) / 86400) < r + 86400 := by omega
  have h1' : ((r : ℤ) : ℚ) ≤ ((86400 * ((r + 86399) / 86400) : ℤ) : ℚ) :=
    Int.cast_le.mpr h1
  have h2' : ((86400 * ((r + 86399) / 86400) : ℤ) : ℚ) < ((r + 86400 : ℤ) : ℚ) :=
    Int.cast_lt.mpr h2
  push_cast at h1' h2'
  rw [Int.ceil_eq_iff]
  constructor
  · rw [lt_div_iff₀ (by norm_num : (0:ℚ) < 86400)]
    linarith
  · rw [div_le_iff₀ (by norm_num : (0:ℚ) < 86400)]
    linarith

/-! ## C1, C2, C8 — trial-window entitlement -/

/-- C1: access is granted exactly when the stored subscription status is
`active` or the current time is still before the trial window's end; while
the status is not `active` the result carries the trial marker (a
`days_left` value) rather than the active-subscription marker `none`, and
this holds for every stored user record (the source stores no plan field at
all, so the grant is trivially independent of any stored plan).  After
trial end with no active subscription both disjuncts fail and access is
denied. -/
theorem trial_access_iff_active_or_in_window (TRIAL_DAYS : ℤ) (u : User) (now : ℤ) :
    (trial_info TRIAL_DAYS u now).1
      = (decide (u.subscription_status = some "active")
          || decide (now < trialEnd TRIAL_DAYS u)) ∧
    ((trial_info TRIAL_DAYS u now).2 = none ↔
      u.subscription_status = some "active") := by
  by_cases hs : u.subscription_status = some "active" <;>
    by_cases ht : now < trialEnd TRIAL_DAYS u <;>
      simp [trial_info, hs, ht]

/-- C2 counterexample: `past_due` is in the claim's allowed set
`{active, trialing, past_due}`, yet a user with status `past_due` whose
7-day trial (account created at time 0) has just ended at `now = 604800`
is denied: `trial_info` returns `(false, some 0)`, not a grant. -/
theorem past_due_after_trial_denied :
    "past_due" ∈ (["active", "trialing", "past_due"] : List String) ∧
    trial_info 7 ⟨"u1", 0, none, some "past_due"⟩ 604800 = (false, some 0) := by
  constructor
  · decide
  · decide

/-- C2 amended: after the trial window has ended, access is granted if and
only if the stored subscription status is exactly `active`; every other
status — including `trialing` and `past_due` — is denied. -/
theorem after_trial_access_iff_active (TRIAL_DAYS : ℤ) (u : User) (now : ℤ)
    (h : trialEnd TRIAL_DAYS u ≤ now) :
    ((trial_info TRIAL_DAYS u now).1 = true ↔
      u.subscription_status = some "active") := by
  by_cases hs : u.subscription_status = some "active" <;>
    simp [trial_info, hs, not_lt.mpr h]

/-- Witness for `after_trial_access_iff_active` at a concrete input: a
0-day trial has ended at `now = 0` and the user's status is `active`. -/
theorem after_trial_access_iff_active_witness :
    ((trial_info 0 ⟨"a", 0, none, some "active"⟩ 0).1 = true ↔
      (⟨"a", 0, none, some "active"⟩ : User).subscription_status = some "active") :=
  after_trial_access_iff_active 0 ⟨"a", 0, none, some "active"⟩ 0 (by decide)

/-- C8: while the trial window is open and the stored status is not
`active`, `trial_info` grants access and reports
`max 1 ⌈remaining seconds / 86400⌉` days left, which is at least 1 — it
never reports 0 days while access rests on the trial. -/
theorem trial_days_left_positive (TRIAL_DAYS : ℤ) (u : User) (now : ℤ)
    (hs : u.subscription_status ≠ some "active")
    (ht : now < trialEnd TRIAL_DAYS u) :
    trial_info TRIAL_DAYS u now
        = (true, some (max 1 ⌈((trialEnd TRIAL_DAYS u - now : ℤ) : ℚ) / 86400⌉)) ∧
    1 ≤ max (1 : ℤ) ⌈((trialEnd TRIAL_DAYS u - now : ℤ) : ℚ) / 86400⌉ := by
  refine ⟨?_, le_max_left _ _⟩
  rw [ceil_days]
  simp [trial_info, hs, ht]

/-- Witness for `trial_days_left_positive`: a never-subscribed user created
at time 0 with a 7-day trial, queried at time 0. -/
theorem trial_days_left_positive_witness :
    trial_info 7 ⟨"w", 0, none, none⟩ 0
        = (true, some (max 1 ⌈((trialEnd 7 ⟨"w", 0, none, none⟩ - 0 : ℤ) : ℚ) / 86400⌉)) ∧
    1 ≤ max (1 : ℤ) ⌈((trialEnd 7 ⟨"w", 0, none, none⟩ - 0 : ℤ) : ℚ) / 86400⌉ :=
  trial_days_left_positive 7 ⟨"w", 0, none, none⟩ 0 (by decide) (by decide)

/-! ## C5, C6 — webhook reconciliation -/

/-- Writing the same status to the same customer twice is the same as
writing it once: the update's guard reads only `stripe_customer_id`,
which the update leaves untouched. -/
lemma apply_status_update_idem (c s : String) (users : List User) :
    apply_status_update c s (apply_status_update c s users)
      = apply_status_update c s users := by
  induction users with
  | nil => rfl
  | cons u rest ih =>
    by_cases h : u.stripe_customer_id = some c <;>
      simp [apply_status_update, h] at ih ⊢ <;> exact ih

/-- A status update whose customer id matches no stored user changes
nothing. -/
lemma apply_status_update_not_found (c s : String) (users : List User)
    (h : ∀ u ∈ users, u.stripe_customer_id ≠ some c) :
    apply_status_update c s users = users := by
  induction users with
  | nil => rfl
  | cons u rest ih =>
    have hu : u.stripe_customer_id ≠ some c := h u (List.mem_cons_self u rest)
    have hrest : ∀ v ∈ rest, v.stripe_customer_id ≠ some c :=
      fun v hv => h v (List.mem_cons_of_mem u hv)
    simp [apply_status_update, hu] at ih ⊢
    exact ih hrest

/-- C5: the webhook reconciliation is idempotent — replaying a billing
event (same event type, customer id and status payload) on the user store
it already produced leaves the store, and the HTTP answer, exactly as
after the first application. -/
theorem stripe_webhook_idempotent (t : String) (data_customer : Option String)
    (data_status : Option String) (users : List User) :
    stripe_webhook t data_customer data_status
        (stripe_webhook t data_customer data_status users).2
      = stripe_webhook t data_customer data_status users := by
  cases data_customer with
  | none => rfl
  | some cid =>
    cases hs : webhook_status t data_status with
    | none => simp [stripe_webhook, hs]
    | some s =>
      by_cases hb : cid = "" ∨ s = ""
      · simp [stripe_webhook, hs, hb]
      · simp [stripe_webhook, hs, hb, apply_status_update_idem]

/-- C6: a billing event whose customer id matches no stored user is a
no-op that still completes successfully: every user record is unchanged
and the handler answers HTTP 200. -/
theorem stripe_webhook_unknown_customer_noop (t : String)
    (data_status : Option String) (cid : String) (users : List User)
    (h : ∀ u ∈ users, u.stripe_customer_id ≠ some cid) :
    stripe_webhook t (some cid) data_status users = (200, users) := by
  cases hs : webhook_status t data_status with
  | none => simp [stripe_webhook, hs]
  | some s =>
    by_cases hb : cid = "" ∨ s = ""
    · simp [stripe_webhook, hs, hb]
    · simp [stripe_webhook, hs, hb, apply_status_update_not_found cid s users h]

/-- Witness for `stripe_webhook_unknown_customer_noop`: a
`customer.subscription.deleted` event for customer `cus_x` hitting a store
whose single user has no linked customer. -/
theorem stripe_webhook_unknown_customer_noop_witness :
    stripe_webhook "customer.subscription.deleted" (some "cus_x") none
        [⟨"u", 0, none, none⟩]
      = (200, [⟨"u", 0, none, none⟩]) :=
  stripe_webhook_unknown_customer_noop "customer.subscription.deleted" none
    "cus_x" [⟨"u", 0, none, none⟩] (by decide)

/-! ## C3, C4, C9, C10 — rate-limit token bucket -/

/-- Updating a key that is present makes its row hold the new values. -/
lemma rlGet_rlSet (store : RLStore) (key : String) (t u : ℚ) (p : ℚ × ℚ)
    (h : rlGet store key = some p) :
    rlGet (rlSet store key t u) key = some (t, u) := by
  induction store with
  | nil => simp [rlGet] at h
  | cons r rest ih =>
    obtain ⟨k, tu⟩ := r
    by_cases hk : k = key
    · subst hk
      simp [rlGet, rlSet]
    · simp [rlGet, rlSet, hk] at h ⊢
      exact ih h

/-- Inserting a row for an absent key makes lookup find it. -/
lemma rlGet_append_of_none (store : RLStore) (key : String) (t u : ℚ)
    (h : rlGet store key = none) :
    rlGet (store ++ [(key, t, u)]) key = some (t, u) := by
  induction store with
  | nil => simp [rlGet]
  | cons r rest ih =>
    obtain ⟨k, tu⟩ := r
    by_cases hk : k = key
    · simp [rlGet, hk] at h
    · simp [rlGet, hk] at h ⊢
      exact ih h

/-- Unfolding of `check_rate_limit` on a key whose bucket row exists. -/
lemma check_rate_limit_of_get (rpm : ℤ) (h : 0 < rpm) (uid : Option String)
    (ip : String) (store : RLStore) (now t u : ℚ)
    (hget : rlGet store (rlKey uid ip) = some (t, u)) :
    check_rate_limit rpm uid ip store now =
      (if min (rpm : ℚ) (t + max 0 (now - u) * ((rpm : ℚ) / 60)) < 1 then
        (false, rlSet store (rlKey uid ip)
          (min (rpm : ℚ) (t + max 0 (now - u) * ((rpm : ℚ) / 60))) now)
      else
        (true, rlSet store (rlKey uid ip)
          (min (rpm : ℚ) (t + max 0 (now - u) * ((rpm : ℚ) / 60)) - 1) now)) := by
  simp [check_rate_limit, not_le.mpr h, hget]

/-- C3 counterexample: capacity 20 (4.4's `capacity/60` refill), stored
bucket `(tokens = 20, lastUpdated = 60)`, call at `now = 0` (the clock
stepped backwards).  The claim's formula (`allowCall_claim`, elapsed
unclamped) refills to `min 20 (20 - 60·(20/60)) = 0` and denies, but the
code clamps elapsed at 0 and allows the call, persisting 19 tokens. -/
theorem rate_limit_negative_elapsed_cex :
    (check_rate_limit 20 (some "u") "a" [("user:u", 20, 60)] 0).1 = true ∧
    (allowCall_claim 20 ((20 : ℚ), (60 : ℚ)) 0).1 = false := by
  constructor
  · have hk : rlKey (some "u") "a" = "user:u" := rfl
    norm_num [check_rate_limit, hk, rlGet, rlSet, min_def, max_def]
  · norm_num [allowCall_claim, min_def, max_def]

/-- C3 amended: on a key with an existing bucket row, `check_rate_limit`
behaves exactly as the spec's token-bucket step with the clamped elapsed
time `max 0 (now - lastUpdated)` (`allowCall`): the verdict agrees, and
the bucket row is persisted with `allowCall`'s token count and the new
timestamp — refilled tokens on denial, one token fewer on success. -/
theorem check_rate_limit_refines_allowCall (rpm : ℤ) (uid : Option String)
    (ip : String) (store : RLStore) (now t u : ℚ) (h : 0 < rpm)
    (hget : rlGet store (rlKey uid ip) = some (t, u)) :
    check_rate_limit rpm uid ip store now
      = ((allowCall rpm (t, u) now).1,
         rlSet store (rlKey uid ip) (allowCall rpm (t, u) now).2.1 now) := by
  rw [check_rate_limit_of_get rpm h uid ip store now t u hget]
  by_cases hc : min (rpm : ℚ) (t + max 0 (now - u) * ((rpm : ℚ) / 60)) < 1 <;>
    simp [allowCall, hc]

/-- Witness for `check_rate_limit_refines_allowCall`: capacity 20, a
bucket holding 5 tokens last updated at time 0, called at time 1. -/
theorem check_rate_limit_refines_allowCall_witness :
    check_rate_limit 20 none "a" [("ip:a", 5, 0)] 1
      = ((allowCall 20 ((5 : ℚ), (0 : ℚ)) 1).1,
         rlSet [("ip:a", 5, 0)] (rlKey none "a") (allowCall 20 ((5 : ℚ), (0 : ℚ)) 1).2.1 1) :=
  check_rate_limit_refines_allowCall 20 none "a" [("ip:a", 5, 0)] 1 5 0
    (by norm_num) rfl

/-- C9: a non-positive configured `RATE_LIMIT_RPM` disables rate limiting
entirely: for every identity key and every call instant the function
answers `true` immediately and the `rate_limit` table is passed through
untouched (the guard precedes the table read). -/
theorem rate_limit_disabled_nonpositive (RATE_LIMIT_RPM : ℤ)
    (uid : Option String) (ip : String) (store : RLStore) (now : ℚ)
    (h : RATE_LIMIT_RPM ≤ 0) :
    check_rate_limit RATE_LIMIT_RPM uid ip store now = (true, store) := by
  simp [check_rate_limit, h]

/-- Witness for `rate_limit_disabled_nonpositive`: capacity 0 with a
stored bucket that holds 0 tokens — the call is still allowed and the
row untouched. -/
theorem rate_limit_disabled_nonpositive_witness :
    check_rate_limit 0 none "a" [("ip:a", 0, 0)] 5 = (true, [("ip:a", 0, 0)]) :=
  rate_limit_disabled_nonpositive 0 none "a" [("ip:a", 0, 0)] 5 (by norm_num)

/-- Bucket at integer token count `m ≤ C`, timestamp `now`: a burst of `n`
calls at the same instant `now` succeeds exactly `min m n` times, then
fails. -/
lemma rl_calls_burst (C : ℕ) (hC : 1 ≤ C) (uid : Option String) (ip : String) (now : ℚ) :
    ∀ (n m : ℕ) (store : RLStore), m ≤ C →
      rlGet store (rlKey uid ip) = some ((m : ℚ), now) →
      (rl_calls (C : ℤ) uid ip (List.replicate n now) store).1
        = List.replicate (min m n) true ++ List.replicate (n - m) false := by
  intro n
  induction n with
  | zero =>
    intro m store hm hget
    simp [rl_calls]
  | succ n ih =>
    intro m store hm hget
    have h0 : (0 : ℤ) < (C : ℤ) := by exact_mod_cast hC
    have hstep := check_rate_limit_of_get (C : ℤ) h0 uid ip store now ((m : ℚ)) now hget
    have hmc : (m : ℚ) ≤ ((C : ℤ) : ℚ) := by exact_mod_cast hm
    have htok : min ((C : ℤ) : ℚ) ((m : ℚ) + max 0 (now - now) * (((C : ℤ) : ℚ) / 60))
        = (m : ℚ) := by
      rw [sub_self, max_self, zero_mul, add_zero, min_eq_right hmc]
    rw [htok] at hstep
    rcases Nat.eq_zero_or_pos m with hm0 | hm1
    · subst hm0
      have hlt : ((0 : ℕ) : ℚ) < 1 := by norm_num
      rw [if_pos hlt] at hstep
      have hget' : rlGet (rlSet store (rlKey uid ip) ((0 : ℕ) : ℚ) now) (rlKey uid ip)
          = some (((0 : ℕ) : ℚ), now) := rlGet_rlSet store _ _ now _ hget
      have := ih 0 (rlSet store (rlKey uid ip) ((0 : ℕ) : ℚ) now) (by omega) hget'
      simp only [List.replicate_succ, rl_calls, hstep]
      simp only [Nat.cast_ofNat, Nat.cast_zero] at this ⊢
      simp [this, List.replicate_succ]
    · have hlt : ¬(((m : ℕ) : ℚ) < 1) := by
        rw [not_lt]
        exact_mod_cast hm1
      rw [if_neg hlt] at hstep
      have hcast : ((m : ℕ) : ℚ) - 1 = ((m - 1 : ℕ) : ℚ) := by
        rw [Nat.cast_sub hm1, Nat.cast_one]
      have hget' : rlGet (rlSet store (rlKey uid ip) ((m : ℚ) - 1) now) (rlKey uid ip)
          = some (((m - 1 : ℕ) : ℚ), now) := by
        rw [← hcast]
        exact rlGet_rlSet store _ _ now _ hget
      have hrec := ih (m - 1) (rlSet store (rlKey uid ip) ((m : ℚ) - 1) now) (by omega) hget'
      have hmin : min m (n + 1) = min (m - 1) n + 1 := by omega
      have hsub : (n + 1) - m = n - (m - 1) := by omega
      simp only [List.replicate_succ, rl_calls, hstep]
      simp only [hrec, hmin, hsub]
      simp [List.replicate_succ]


/-- One `check_rate_limit` call on an existing bucket keeps the stored
token count within `[0, capacity]` and stamps it with the call time. -/
lemma check_rate_limit_step_bounds (rpm : ℤ) (h1 : 1 ≤ rpm) (uid : Option String)
    (ip : String) (store : RLStore) (now t u : ℚ)
    (hget : rlGet store (rlKey uid ip) = some (t, u)) (h0 : 0 ≤ t) (hC : t ≤ (rpm : ℚ)) :
    ∃ t', rlGet (check_rate_limit rpm uid ip store now).2 (rlKey uid ip) = some (t', now)
      ∧ 0 ≤ t' ∧ t' ≤ (rpm : ℚ) := by
  have h0' : (0 : ℤ) < rpm := by omega
  have hrq : (0 : ℚ) ≤ (rpm : ℚ) := by exact_mod_cast (by omega : (0:ℤ) ≤ rpm)
  rw [check_rate_limit_of_get rpm h0' uid ip store now t u hget]
  have hub : min (rpm : ℚ) (t + max 0 (now - u) * ((rpm : ℚ) / 60)) ≤ (rpm : ℚ) :=
    min_le_left _ _
  have hlb : 0 ≤ min (rpm : ℚ) (t + max 0 (now - u) * ((rpm : ℚ) / 60)) := by
    apply le_min hrq
    apply add_nonneg h0
    exact mul_nonneg (le_max_left 0 _) (div_nonneg hrq (by norm_num))
  by_cases hc : min (rpm : ℚ) (t + max 0 (now - u) * ((rpm : ℚ) / 60)) < 1
  · refine ⟨min (rpm : ℚ) (t + max 0 (now - u) * ((rpm : ℚ) / 60)), ?_, hlb, hub⟩
    rw [if_pos hc]
    exact rlGet_rlSet store _ _ now _ hget
  · refine ⟨min (rpm : ℚ) (t + max 0 (now - u) * ((rpm : ℚ) / 60)) - 1, ?_, ?_, ?_⟩
    · rw [if_neg hc]
      exact rlGet_rlSet store _ _ now _ hget
    · linarith [not_lt.mp hc]
    · linarith

/-- Any sequence of calls keeps the stored token count within
`[0, capacity]`. -/
lemma rl_calls_bounds (rpm : ℤ) (h1 : 1 ≤ rpm) (uid : Option String) (ip : String) :
    ∀ (ts : List ℚ) (store : RLStore) (t u : ℚ),
      rlGet store (rlKey uid ip) = some (t, u) → 0 ≤ t → t ≤ (rpm : ℚ) →
      ∃ t' u', rlGet (rl_calls rpm uid ip ts store).2 (rlKey uid ip) = some (t', u')
        ∧ 0 ≤ t' ∧ t' ≤ (rpm : ℚ) := by
  intro ts
  induction ts with
  | nil =>
    intro store t u hget h0 hC
    exact ⟨t, u, by simpa [rl_calls] using hget, h0, hC⟩
  | cons a ts ih =>
    intro store t u hget h0 hC
    obtain ⟨t1, hget1, h01, hC1⟩ :=
      check_rate_limit_step_bounds rpm h1 uid ip store a t u hget h0 hC
    obtain ⟨t', u', hget', h0', hC'⟩ :=
      ih (check_rate_limit rpm uid ip store a).2 t1 a hget1 h01 hC1
    exact ⟨t', u', by simpa [rl_calls] using hget', h0', hC'⟩

/-- C10: for every capacity `C ≥ 1`, starting from a freshly initialized
bucket (first call on a key with no row), every sequence of further calls
with non-decreasing timestamps leaves the stored token count within
`0 ≤ tokens ≤ C`: the refill is capped at `C` and a token is consumed only
when at least one is available. -/
theorem rate_limit_tokens_bounded (C : ℕ) (hC : 1 ≤ C) (uid : Option String)
    (ip : String) (t0 : ℚ) (ts : List ℚ) (store : RLStore)
    (hfresh : rlGet store (rlKey uid ip) = none)
    (hmono : List.Chain (· ≤ ·) t0 ts) :
    ∃ t u,
      rlGet (rl_calls (C : ℤ) uid ip ts
          (check_rate_limit (C : ℤ) uid ip store t0).2).2 (rlKey uid ip) = some (t, u)
      ∧ 0 ≤ t ∧ t ≤ (C : ℚ) := by
  have h1 : (1 : ℤ) ≤ (C : ℤ) := by exact_mod_cast hC
  have hnle : ¬((C : ℤ) ≤ 0) := by omega
  have hfirst : (check_rate_limit (C : ℤ) uid ip store t0).2
      = store ++ [(rlKey uid ip, ((C : ℤ) : ℚ) - 1, t0)] := by
    simp [check_rate_limit, hnle, hfresh]
  have hget1 : rlGet (check_rate_limit (C : ℤ) uid ip store t0).2 (rlKey uid ip)
      = some (((C : ℤ) : ℚ) - 1, t0) := by
    rw [hfirst]
    exact rlGet_append_of_none store _ _ t0 hfresh
  have h0 : (0 : ℚ) ≤ ((C : ℤ) : ℚ) - 1 := by
    have : (1 : ℚ) ≤ ((C : ℤ) : ℚ) := by exact_mod_cast h1
    linarith
  have hCb : ((C : ℤ) : ℚ) - 1 ≤ ((C : ℤ) : ℚ) := by linarith
  obtain ⟨t, u, hget, hb0, hb1⟩ :=
    rl_calls_bounds (C : ℤ) h1 uid ip ts _ _ _ hget1 h0 hCb
  refine ⟨t, u, hget, hb0, ?_⟩
  exact_mod_cast hb1

/-- C4: for every capacity `C ≥ 1` and a key with no prior bucket row, the
first call succeeds and initializes the bucket to `C - 1` tokens; a burst
of `C + 1` calls at one instant from no prior state yields exactly `C`
successes followed by one denial. -/
theorem rate_limit_first_call_and_burst (C : ℕ) (hC : 1 ≤ C) (uid : Option String)
    (ip : String) (store : RLStore) (now : ℚ)
    (hfresh : rlGet store (rlKey uid ip) = none) :
    (check_rate_limit (C : ℤ) uid ip store now).1 = true ∧
    rlGet (check_rate_limit (C : ℤ) uid ip store now).2 (rlKey uid ip)
      = some ((C : ℚ) - 1, now) ∧
    (rl_calls (C : ℤ) uid ip (List.replicate (C + 1) now) store).1
      = List.replicate C true ++ [false] := by
  have hnle : ¬((C : ℤ) ≤ 0) := by
    simp only [not_le]
    exact_mod_cast hC
  have hfst : check_rate_limit (C : ℤ) uid ip store now
      = (true, store ++ [(rlKey uid ip, ((C : ℤ) : ℚ) - 1, now)]) := by
    simp [check_rate_limit, hnle, hfresh]
  have hget1 : rlGet (check_rate_limit (C : ℤ) uid ip store now).2 (rlKey uid ip)
      = some (((C : ℤ) : ℚ) - 1, now) := by
    rw [hfst]
    exact rlGet_append_of_none store _ _ now hfresh
  have hcast : ((C : ℤ) : ℚ) - 1 = ((C - 1 : ℕ) : ℚ) := by
    rw [Nat.cast_sub hC, Nat.cast_one]
    push_cast
    ring
  refine ⟨by rw [hfst], by rw [hget1]; push_cast; ring_nf, ?_⟩
  have hget1' : rlGet (check_rate_limit (C : ℤ) uid ip store now).2 (rlKey uid ip)
      = some (((C - 1 : ℕ) : ℚ), now) := by rw [hget1, hcast]
  have hburst := rl_calls_burst C hC uid ip now C (C - 1)
    (check_rate_limit (C : ℤ) uid ip store now).2 (by omega) hget1'
  have hrep : List.replicate (C + 1) now = now :: List.replicate C now :=
    List.replicate_succ now C
  rw [hrep]
  simp only [rl_calls]
  rw [hburst, hfst]
  have hmin : min (C - 1) C = C - 1 := by omega
  have hsub : C - (C - 1) = 1 := by omega
  rw [hmin, hsub]
  have hCrep : List.replicate C true = true :: List.replicate (C - 1) true := by
    conv_lhs => rw [(by omega : C = (C - 1) + 1)]
    rw [List.replicate_succ]
  rw [hCrep, List.replicate_one, List.cons_append]


/-- Witness for `rate_limit_first_call_and_burst` at capacity 1: the first
call succeeds leaving 0 tokens, and of 2 instantaneous calls exactly the
first succeeds. -/
theorem rate_limit_first_call_and_burst_witness :
    (check_rate_limit 1 none "a" [] 0).1 = true ∧
    rlGet (check_rate_limit 1 none "a" [] 0).2 (rlKey none "a")
      = some ((1 : ℚ) - 1, 0) ∧
    (rl_calls 1 none "a" (List.replicate 2 0) []).1
      = List.replicate 1 true ++ [false] := by
  simpa using rate_limit_first_call_and_burst 1 (by norm_num) none "a" [] 0 rfl

/-- Witness for `rate_limit_tokens_bounded` at capacity 1 with one further
call after initialization. -/
theorem rate_limit_tokens_bounded_witness :
    ∃ t u,
      rlGet (rl_calls 1 none "a" [0]
          (check_rate_limit 1 none "a" [] 0).2).2 (rlKey none "a") = some (t, u)
      ∧ 0 ≤ t ∧ t ≤ (1 : ℚ) := by
  simpa using rate_limit_tokens_bounded 1 (by norm_num) none "a" 0 [0] [] rfl
    (List.Chain.cons le_rfl List.Chain.nil)

/-! ## C7 — daily quota check (spec-modelled) -/

/-- C7: `checkAndConsume` returns `allowed = (used < allowance)` and
`remaining = max(allowance - used, 0)` where `used` is the ledger count of
the user's events of that kind in the day window; concretely, on the free
plan's `chat_daily = 15`, the 16th chat message of a day (15 events already
in the window) is denied with `used = 15` and `remaining = 0`. -/
theorem checkAndConsume_quota :
    (∀ (ledger : List UsageEvent) (userId actionKind : String) (allowance : ℕ)
        (dayStart dayEnd : ℤ),
      (checkAndConsume ledger userId actionKind allowance dayStart dayEnd).used
          = countEvents ledger userId actionKind dayStart dayEnd ∧
      ((checkAndConsume ledger userId actionKind allowance dayStart dayEnd).allowed
            = true ↔
        countEvents ledger userId actionKind dayStart dayEnd < allowance) ∧
      (checkAndConsume ledger userId actionKind allowance dayStart dayEnd).remaining
          = max ((allowance : ℤ)
              - countEvents ledger userId actionKind dayStart dayEnd) 0) ∧
    checkAndConsume
        ((List.range 15).map fun i => ⟨"u", "chat_message", (i : ℤ)⟩)
        "u" "chat_message" 15 0 86400
      = ⟨false, 15, 0⟩ := by
  refine ⟨fun ledger userId actionKind allowance dayStart dayEnd =>
    ⟨rfl, by simp [checkAndConsume], rfl⟩, by decide⟩

end KindFriend
